import Mathlib

/-!
Shallow embedding of the blog CRUD API (`src/index.ts`) and its SQLite schema
(`src/unnamed/part_000`), together with proofs about slug generation, the post
listing query builder and its pagination, post creation/update/deletion, and
comment listing.

Timestamps (ISO datetime strings in the source, compared chronologically by
SQL `ORDER BY`) are modelled as natural numbers ordered by `≤`.
-/

namespace Blog

/-! ### Slug generator (`generateSlug`, src/index.ts lines 73–78)

`title.toLowerCase().replace(/[^a-z0-9]+/g, '-').replace(/(^-|-$)/g, '')`.

`toLowerCase` is modelled per character by `Char.toLower`; the regex
`[^a-z0-9]+` replaces every maximal run of characters outside `[a-z0-9]`
with a single hyphen; the final regex removes one leading and one trailing
hyphen. -/

/-- A character matched by the regex class `[a-z0-9]` (by code point:
`'a'`–`'z'` is 97–122, `'0'`–`'9'` is 48–57). -/
def isSlugChar (c : Char) : Bool :=
  (97 ≤ c.toNat && c.toNat ≤ 122) || (48 ≤ c.toNat && c.toNat ≤ 57)

/-- Replace every maximal run of non-`[a-z0-9]` characters by a single `'-'`
(the regex `/[^a-z0-9]+/g` → `'-'`). The boolean argument records whether we
are inside such a run (a hyphen has already been emitted for it). -/
def replaceRuns : Bool → List Char → List Char
  | _, [] => []
  | inRun, c :: cs =>
    if isSlugChar c then c :: replaceRuns false cs
    else if inRun then replaceRuns true cs
    else '-' :: replaceRuns true cs

/-- Remove a single leading hyphen (the `^-` alternative of `/(^-|-$)/g`). -/
def stripLeadingHyphen : List Char → List Char
  | [] => []
  | c :: cs => if c = '-' then cs else c :: cs

/-- Remove one leading and one trailing hyphen (the regex `/(^-|-$)/g`). -/
def stripEdgeHyphens (l : List Char) : List Char :=
  (stripLeadingHyphen (stripLeadingHyphen l).reverse).reverse

/-- `generateSlug` from src/index.ts lines 73–78. -/
def generateSlug (title : String) : String :=
  ⟨stripEdgeHyphens (replaceRuns false (title.data.map Char.toLower))⟩

/-- Two adjacent characters are not both hyphens. -/
def NotBothHyphens (a b : Char) : Prop := ¬(a = '-' ∧ b = '-')

instance : DecidableRel NotBothHyphens := fun _ _ => instDecidableNot

lemma mem_replaceRuns {c : Char} :
    ∀ (b : Bool) (l : List Char), c ∈ replaceRuns b l → isSlugChar c = true ∨ c = '-' := by
  intro b l
  induction l generalizing b with
  | nil => intro h; simp [replaceRuns] at h
  | cons d ds ih =>
    intro h
    by_cases hd : isSlugChar d
    · rw [replaceRuns, if_pos hd] at h
      rcases List.mem_cons.mp h with h | h
      · exact Or.inl (h ▸ hd)
      · exact ih false h
    · cases b
      · rw [replaceRuns, if_neg hd, if_neg (by simp)] at h
        rcases List.mem_cons.mp h with h | h
        · exact Or.inr h
        · exact ih true h
      · rw [replaceRuns, if_neg hd, if_pos (by simp)] at h
        exact ih true h

lemma head_replaceRuns_true (l : List Char) : (replaceRuns true l).head? ≠ some '-' := by
  induction l with
  | nil => simp [replaceRuns]
  | cons d ds ih =>
    by_cases hd : isSlugChar d
    · rw [replaceRuns, if_pos hd]
      simp only [List.head?_cons, ne_eq, Option.some.injEq]
      intro h
      rw [h] at hd
      exact absurd hd (by decide)
    · rw [replaceRuns, if_neg hd, if_pos (by simp)]
      exact ih

lemma chain_replaceRuns : ∀ (b : Bool) (l : List Char),
    List.Chain' NotBothHyphens (replaceRuns b l) := by
  intro b l
  induction l generalizing b with
  | nil => simp [replaceRuns]
  | cons d ds ih =>
    by_cases hd : isSlugChar d
    · rw [replaceRuns, if_pos hd]
      refine (ih false).cons' ?_
      intro y _ hcontra
      rw [hcontra.1] at hd
      exact absurd hd (by decide)
    · cases b
      · rw [replaceRuns, if_neg hd, if_neg (by simp)]
        refine (ih true).cons' ?_
        intro y hy hcontra
        exact head_replaceRuns_true ds (by simpa [Option.mem_def, hcontra.2] using hy)
      · rw [replaceRuns, if_neg hd, if_pos (by simp)]
        exact ih true

lemma mem_stripLeadingHyphen {c : Char} {l : List Char}
    (h : c ∈ stripLeadingHyphen l) : c ∈ l := by
  cases l with
  | nil => simp [stripLeadingHyphen] at h
  | cons d ds =>
    rw [stripLeadingHyphen] at h
    split at h
    · exact List.mem_cons_of_mem _ h
    · exact h

lemma chain_stripLeadingHyphen {l : List Char}
    (h : List.Chain' NotBothHyphens l) :
    List.Chain' NotBothHyphens (stripLeadingHyphen l) := by
  cases l with
  | nil => exact h
  | cons d ds =>
    rw [stripLeadingHyphen]
    split
    · exact h.tail
    · exact h

lemma head_stripLeadingHyphen {l : List Char}
    (h : List.Chain' NotBothHyphens l) :
    (stripLeadingHyphen l).head? ≠ some '-' := by
  cases l with
  | nil => simp [stripLeadingHyphen]
  | cons d ds =>
    rw [stripLeadingHyphen]
    split
    · rename_i hd
      cases ds with
      | nil => simp
      | cons e es =>
        simp only [List.head?_cons, ne_eq, Option.some.injEq]
        intro he
        exact (List.chain'_cons.mp h).1 ⟨hd, he⟩
    · rename_i hd
      simpa using hd

lemma getLast_stripLeadingHyphen {l : List Char}
    (h : l.getLast? ≠ some '-') :
    (stripLeadingHyphen l).getLast? ≠ some '-' := by
  cases l with
  | nil => exact h
  | cons d ds =>
    rw [stripLeadingHyphen]
    split
    · cases ds with
      | nil => simp
      | cons e es => simpa using h
    · exact h

lemma stripLeadingHyphen_of_head {l : List Char} (h : l.head? ≠ some '-') :
    stripLeadingHyphen l = l := by
  cases l with
  | nil => rfl
  | cons d ds =>
    rw [stripLeadingHyphen, if_neg]
    simpa using h

lemma chain_reverse_nbh {l : List Char}
    (h : List.Chain' NotBothHyphens l) :
    List.Chain' NotBothHyphens l.reverse := by
  rw [List.chain'_reverse]
  exact h.imp fun a b hab hc => hab ⟨hc.2, hc.1⟩

lemma stripEdge_shape {m : List Char}
    (hmem : ∀ c ∈ m, isSlugChar c = true ∨ c = '-')
    (hch : List.Chain' NotBothHyphens m) :
    (∀ c ∈ stripEdgeHyphens m, isSlugChar c = true ∨ c = '-') ∧
    List.Chain' NotBothHyphens (stripEdgeHyphens m) ∧
    (stripEdgeHyphens m).head? ≠ some '-' ∧
    (stripEdgeHyphens m).getLast? ≠ some '-' := by
  have hch1 : List.Chain' NotBothHyphens (stripLeadingHyphen m) :=
    chain_stripLeadingHyphen hch
  have hch2 : List.Chain' NotBothHyphens (stripLeadingHyphen m).reverse :=
    chain_reverse_nbh hch1
  have hch3 : List.Chain' NotBothHyphens (stripLeadingHyphen (stripLeadingHyphen m).reverse) :=
    chain_stripLeadingHyphen hch2
  refine ⟨?_, ?_, ?_, ?_⟩
  · intro c hc
    rw [stripEdgeHyphens, List.mem_reverse] at hc
    exact hmem c (mem_stripLeadingHyphen (by
      simpa [List.mem_reverse] using mem_stripLeadingHyphen hc))
  · exact chain_reverse_nbh hch3
  · rw [stripEdgeHyphens, List.head?_reverse]
    apply getLast_stripLeadingHyphen
    rw [List.getLast?_reverse]
    exact head_stripLeadingHyphen hch
  · rw [stripEdgeHyphens, List.getLast?_reverse]
    exact head_stripLeadingHyphen hch2

/-- Well-formedness of every slug: only `[a-z0-9]` characters or hyphens,
no two adjacent hyphens, no leading and no trailing hyphen. -/
lemma slug_shape (s : String) :
    (∀ c ∈ (generateSlug s).data, isSlugChar c = true ∨ c = '-') ∧
    List.Chain' NotBothHyphens (generateSlug s).data ∧
    (generateSlug s).data.head? ≠ some '-' ∧
    (generateSlug s).data.getLast? ≠ some '-' :=
  stripEdge_shape (fun _ hc => mem_replaceRuns false _ hc) (chain_replaceRuns false _)

lemma toLower_eq_self {c : Char} (h : c.toNat < 65 ∨ 90 < c.toNat) :
    Char.toLower c = c := by
  rw [Char.toLower, if_neg]
  omega

lemma map_toLower_fixed {l : List Char}
    (h : ∀ c ∈ l, isSlugChar c = true ∨ c = '-') :
    l.map Char.toLower = l := by
  rw [List.map_congr_left, List.map_id]
  intro c hc
  rcases h c hc with hs | hs
  · simp only [isSlugChar, Bool.or_eq_true, Bool.and_eq_true, decide_eq_true_eq] at hs
    exact toLower_eq_self (by omega)
  · rw [hs]
    exact toLower_eq_self (by decide)

lemma replaceRuns_fixed :
    ∀ l : List Char, (∀ c ∈ l, isSlugChar c = true ∨ c = '-') →
      List.Chain' NotBothHyphens l → l.getLast? ≠ some '-' →
      replaceRuns false l = l ∧ (l.head? ≠ some '-' → replaceRuns true l = l) := by
  intro l
  induction l with
  | nil => intro _ _ _; exact ⟨rfl, fun _ => rfl⟩
  | cons c cs ih =>
    intro hmem hch hlast
    by_cases hc : isSlugChar c
    · have htail : replaceRuns false cs = cs := by
        cases cs with
        | nil => rfl
        | cons e es =>
          exact (ih (fun d hd => hmem d (List.mem_cons_of_mem _ hd)) hch.tail
            (by simpa using hlast)).1
      constructor
      · rw [replaceRuns, if_pos hc, htail]
      · intro _
        rw [replaceRuns, if_pos hc, htail]
    · have hc' : c = '-' := by
        rcases hmem c (List.mem_cons_self _ _) with h | h
        · exact absurd h hc
        · exact h
      constructor
      · rw [replaceRuns, if_neg hc, if_neg (by simp)]
        cases cs with
        | nil =>
          exfalso
          apply hlast
          rw [hc']
          rfl
        | cons e es =>
          have he : e ≠ '-' := by
            intro he
            exact (List.chain'_cons.mp hch).1 ⟨hc', he⟩
          have := (ih (fun d hd => hmem d (List.mem_cons_of_mem _ hd)) hch.tail
            (by simpa using hlast)).2 (by simpa using he)
          rw [this, hc']
      · intro hhead
        exfalso
        apply hhead
        rw [hc']
        rfl

lemma stripEdge_fixed {l : List Char}
    (h1 : l.head? ≠ some '-') (h2 : l.getLast? ≠ some '-') :
    stripEdgeHyphens l = l := by
  rw [stripEdgeHyphens, stripLeadingHyphen_of_head h1,
    stripLeadingHyphen_of_head (by simpa using h2), List.reverse_reverse]

lemma generateSlug_fixed {y : String}
    (hmem : ∀ c ∈ y.data, isSlugChar c = true ∨ c = '-')
    (hch : List.Chain' NotBothHyphens y.data)
    (hhead : y.data.head? ≠ some '-')
    (hlast : y.data.getLast? ≠ some '-') :
    generateSlug y = y := by
  rw [generateSlug, map_toLower_fixed hmem,
    (replaceRuns_fixed y.data hmem hch hlast).1, stripEdge_fixed hhead hlast]


/-! ### Data model -/

structure PostRow where
  id : Nat
  title : String
  slug : String
  content : String
  excerpt : Option String
  author : String
  status : String
  featured_image : Option String
  tags : String
  category_id : Option Nat
  created_at : Nat
  updated_at : Nat
  published_at : Option Nat
deriving DecidableEq, Repr

structure CategoryRow where
  id : Nat
  name : String
  slug : String
  description : Option String
  created_at : Nat
deriving DecidableEq, Repr

structure CommentRow where
  id : Nat
  post_id : Nat
  author_name : String
  author_email : String
  content : String
  status : String
  created_at : Nat
deriving DecidableEq, Repr

structure Database where
  posts : List PostRow
  categories : List CategoryRow
  comments : List CommentRow
deriving DecidableEq, Repr

/-! ### SQL building blocks -/

/-- SQLite `LIKE '%needle%'` with default (ASCII case-insensitive) collation. -/
def likeContains (needle hay : String) : Bool :=
  decide ((needle.data.map Char.toLower) <:+: (hay.data.map Char.toLower))

/-- The `search` clause `(p.title LIKE ? OR p.content LIKE ?)` (absent filter
imposes no constraint). -/
def searchOk : Option String → PostRow → Bool
  | none, _ => true
  | some s, p => likeContains s p.title || likeContains s p.content

/-- `LEFT JOIN categories c ON p.category_id = c.id`: each post yields one row
per matching category, or a single row with no category when none matches. -/
def leftJoinCategory (cats : List CategoryRow) (p : PostRow) :
    List (PostRow × Option CategoryRow) :=
  match cats.filter (fun c => p.category_id == some c.id) with
  | [] => [(p, none)]
  | ms => ms.map (fun c => (p, some c))

/-- The list query's category clause `AND c.slug = ?` on the joined row
(SQL `NULL = ?` is not satisfied, so an unmatched LEFT JOIN row fails it). -/
def categoryOkJoined : Option String → Option CategoryRow → Bool
  | none, _ => true
  | some slug, some c => c.slug == slug
  | some _, none => false

/-- The count query's category clause
`AND EXISTS (SELECT 1 FROM categories c WHERE c.id = p.category_id AND c.slug = ?)`. -/
def categoryOkExists (cats : List CategoryRow) : Option String → PostRow → Bool
  | none, _ => true
  | some slug, p => cats.any (fun c => p.category_id == some c.id && c.slug == slug)

/-- The rows satisfying the list query of GET /api/posts (src/index.ts lines
205–224) before `ORDER BY`/`LIMIT`/`OFFSET` are applied. -/
def listPostsRows (db : Database) (status : String) (category search : Option String) :
    List (PostRow × Option CategoryRow) :=
  (db.posts.flatMap (leftJoinCategory db.categories)).filter
    (fun pc => pc.1.status == status && categoryOkJoined category pc.2 && searchOk search pc.1)

/-- The count query of GET /api/posts (src/index.ts lines 229–242). -/
def countPostsTotal (db : Database) (status : String) (category search : Option String) : Nat :=
  (db.posts.filter
    (fun p => p.status == status && categoryOkExists db.categories category p &&
      searchOk search p)).length


lemma nodup_filter_catId (cats : List CategoryRow)
    (hid : (cats.map CategoryRow.id).Nodup) (x : Option Nat) :
    cats.filter (fun c => x == some c.id) = [] ∨
    ∃ c, cats.filter (fun c => x == some c.id) = [c] := by
  have hsub : (cats.filter (fun c => x == some c.id)).Sublist cats := List.filter_sublist _
  have hnd : ((cats.filter (fun c => x == some c.id)).map CategoryRow.id).Nodup :=
    hid.sublist (hsub.map _)
  match h : cats.filter (fun c => x == some c.id) with
  | [] => exact Or.inl h
  | [c] => exact Or.inr ⟨c, h⟩
  | c :: c2 :: rest =>
    exfalso
    rw [h] at hnd
    have hc : (x == some c.id) = true := by
      have hm : c ∈ cats.filter (fun c => x == some c.id) := by
        rw [h]; exact List.mem_cons_self _ _
      exact (List.mem_filter.mp hm).2
    have hc2 : (x == some c2.id) = true := by
      have hm : c2 ∈ cats.filter (fun c => x == some c.id) := by
        rw [h]; exact List.mem_cons_of_mem _ (List.mem_cons_self _ _)
      exact (List.mem_filter.mp hm).2
    have hideq : c.id = c2.id := by
      have h1 := eq_of_beq hc
      have h2 := eq_of_beq hc2
      rw [h1] at h2
      exact Option.some.inj h2
    rw [List.map_cons, List.map_cons, List.nodup_cons] at hnd
    exact hnd.1 (by rw [hideq]; exact List.mem_cons_self _ _)

lemma per_post (cats : List CategoryRow)
    (hid : (cats.map CategoryRow.id).Nodup)
    (status : String) (category search : Option String) (p : PostRow) :
    ((leftJoinCategory cats p).filter
      (fun pc => pc.1.status == status && categoryOkJoined category pc.2 &&
        searchOk search pc.1)).length =
    if p.status == status && categoryOkExists cats category p && searchOk search p
      then 1 else 0 := by
  rcases nodup_filter_catId cats hid p.category_id with h | ⟨c, h⟩
  · have hjoin : leftJoinCategory cats p = [(p, none)] := by
      rw [leftJoinCategory, h]
    have hmid : categoryOkJoined category (none : Option CategoryRow) =
        categoryOkExists cats category p := by
      cases category with
      | none => rfl
      | some slug =>
        have hany : cats.any (fun c => p.category_id == some c.id && c.slug == slug) = false := by
          rw [List.any_eq_false]
          intro a ha
          by_cases hcid : (p.category_id == some a.id) = true
          · exfalso
            have hmem2 : a ∈ cats.filter (fun c => p.category_id == some c.id) :=
              List.mem_filter.mpr ⟨ha, hcid⟩
            rw [h] at hmem2
            exact List.not_mem_nil a hmem2
          · simp [hcid]
        simp [categoryOkJoined, categoryOkExists, hany]
    rw [hjoin]
    simp only [List.filter_cons, List.filter_nil]
    rw [hmid]
    split
    · simp
    · simp
  · have hcmem : c ∈ cats.filter (fun c => p.category_id == some c.id) := by
      rw [h]; exact List.mem_cons_self _ _
    have hcin : c ∈ cats := (List.mem_filter.mp hcmem).1
    have hcid : (p.category_id == some c.id) = true := (List.mem_filter.mp hcmem).2
    have hjoin : leftJoinCategory cats p = [(p, some c)] := by
      rw [leftJoinCategory, h]
      rfl
    have hmid : categoryOkJoined category (some c) = categoryOkExists cats category p := by
      cases category with
      | none => rfl
      | some slug =>
        simp only [categoryOkJoined, categoryOkExists]
        cases hb : (c.slug == slug) with
        | false =>
          symm
          rw [List.any_eq_false]
          intro a ha
          by_cases hcid2 : (p.category_id == some a.id) = true
          · have hmem2 : a ∈ cats.filter (fun c => p.category_id == some c.id) :=
              List.mem_filter.mpr ⟨ha, hcid2⟩
            rw [h] at hmem2
            have haeq : a = c := by simpa using hmem2
            simp [hcid2, haeq, hb]
          · simp [hcid2]
        | true =>
          symm
          rw [List.any_eq_true]
          exact ⟨c, hcin, by simp [hcid, hb]⟩
    rw [hjoin]
    simp only [List.filter_cons, List.filter_nil]
    rw [hmid]
    split
    · simp
    · simp

lemma listCount_aux (cats : List CategoryRow)
    (hid : (cats.map CategoryRow.id).Nodup)
    (status : String) (category search : Option String) :
    ∀ ps : List PostRow,
      ((ps.flatMap (leftJoinCategory cats)).filter
        (fun pc => pc.1.status == status && categoryOkJoined category pc.2 &&
          searchOk search pc.1)).length =
      (ps.filter (fun p => p.status == status && categoryOkExists cats category p &&
        searchOk search p)).length := by
  intro ps
  induction ps with
  | nil => rfl
  | cons p ps ih =>
    rw [List.flatMap_cons, List.filter_append, List.length_append, ih,
      per_post cats hid status category search p, List.filter_cons]
    by_cases hp : (p.status == status && categoryOkExists cats category p &&
        searchOk search p) = true
    · simp [hp, Nat.add_comm]
    · simp [hp]

/-! ### Pagination and ordering -/

/-- `LIMIT ? OFFSET ?` with SQLite semantics: a negative offset behaves as 0
and a negative limit means no limit. -/
def sqlLimitOffset {α : Type} (l : List α) (limit offset : Int) : List α :=
  let dropped := l.drop (max offset 0).toNat
  if limit < 0 then dropped else dropped.take limit.toNat

/-- `Math.ceil(total / limit)` on exact numbers. -/
def jsCeilDiv (total : Nat) (limit : Int) : Int := ⌈(total : ℚ) / (limit : ℚ)⌉

structure Pagination where
  page : Int
  limit : Int
  total : Nat
  pages : Int
deriving DecidableEq, Repr

/-- Sort key for `ORDER BY p.published_at DESC`: SQLite sorts `NULL` first in
ascending order, hence last in descending order; `-1` is below every
timestamp. -/
def pubKey (p : PostRow) : Int :=
  match p.published_at with
  | some t => (t : Int)
  | none => -1

/-- `ORDER BY p.published_at DESC, p.created_at DESC` as a total preorder:
`a` may come before `b`. -/
def postsOrder (a b : PostRow) : Prop :=
  pubKey b < pubKey a ∨ (pubKey a = pubKey b ∧ b.created_at ≤ a.created_at)

instance : DecidableRel postsOrder := fun a b => by
  unfold postsOrder
  infer_instance

/-- `postsOrder` lifted to the LEFT-JOINed rows (ordering reads only the
`p.*` columns). -/
def joinedOrder (a b : PostRow × Option CategoryRow) : Prop := postsOrder a.1 b.1

instance : DecidableRel joinedOrder := fun a b => by
  unfold joinedOrder
  infer_instance

structure ListPostsResponse where
  posts : List (PostRow × Option CategoryRow)
  boundOffset : Int
  pagination : Pagination

/-- GET /api/posts (src/index.ts lines 196–257): defaults `page=1`, `limit=10`,
`status='published'`; `offset = (page - 1) * limit`; filtered, ordered,
paginated list query plus a separate count query feeding
`pages = Math.ceil(total / limit)`. -/
def getPosts (db : Database) (pageQ limitQ : Option Int)
    (statusQ categoryQ searchQ : Option String) : ListPostsResponse :=
  let page := pageQ.getD 1
  let limit := limitQ.getD 10
  let status := statusQ.getD "published"
  let offset := (page - 1) * limit
  let rows := sqlLimitOffset
    (List.insertionSort joinedOrder (listPostsRows db status categoryQ searchQ)) limit offset
  let total := countPostsTotal db status categoryQ searchQ
  { posts := rows
    boundOffset := offset
    pagination := { page := page, limit := limit, total := total,
                    pages := jsCeilDiv total limit } }

lemma jsCeilDiv_bounds (total : Nat) (limit : Int) (hl : 0 < limit) :
    (total : Int) ≤ jsCeilDiv total limit * limit ∧
    jsCeilDiv total limit * limit < total + limit := by
  have hql : (0 : ℚ) < (limit : ℚ) := by exact_mod_cast hl
  constructor
  · have h1 : ((total : ℚ) / (limit : ℚ)) ≤ ((⌈(total : ℚ) / (limit : ℚ)⌉ : Int) : ℚ) :=
      Int.le_ceil _
    rw [div_le_iff₀ hql] at h1
    rw [jsCeilDiv]
    exact_mod_cast h1
  · have h2 : ((⌈(total : ℚ) / (limit : ℚ)⌉ : Int) : ℚ) < (total : ℚ) / (limit : ℚ) + 1 :=
      Int.ceil_lt_add_one _
    have h3 : ((⌈(total : ℚ) / (limit : ℚ)⌉ : Int) : ℚ) - 1 < (total : ℚ) / (limit : ℚ) := by
      linarith
    rw [sub_lt_iff_lt_add] at h3
    rw [div_add' _ _ _ (ne_of_gt hql)] at h3
    rw [lt_div_iff₀ hql] at h3
    have h4 : ((⌈(total : ℚ) / (limit : ℚ)⌉ : Int) : ℚ) * limit < total + limit := by
      nlinarith
    rw [jsCeilDiv]
    exact_mod_cast h4



/-! ### Post creation (POST /api/admin/posts, src/index.ts lines 300–340) -/

/-- The parsed body of a post-create request. Optional fields are the ones
zod marks `.optional()`; `status` is recorded before the `.default('draft')`
is applied, so that the omitted case can be distinguished. -/
structure PostInput where
  title : String
  content : String
  excerpt : Option String
  author : String
  status : Option String
  featured_image : Option String
  tags : Option String
  category_id : Option Nat
deriving DecidableEq, Repr

/-- JavaScript `a || b` on an optional string: both a missing value and the
empty string are falsy. -/
def jsOrElse : Option String → String → String
  | some s, b => if s = "" then b else s
  | none, b => b

/-- `content.substring(0, 200)`. -/
def jsSubstring (s : String) (n : Nat) : String := ⟨s.data.take n⟩

/-- zod `.default('draft')` applied to the parsed `status`. -/
def effectiveStatus (i : PostInput) : String := i.status.getD "draft"

/-- The row bound by the INSERT of POST /api/admin/posts (lines 312–328):
slug derived from the title, excerpt defaulting to truncated content plus an
ellipsis, `created_at = updated_at = now`, and
`published_at = data.status === 'published' ? now : null`. -/
def createdPostRow (i : PostInput) (newId now : Nat) : PostRow :=
  { id := newId
    title := i.title
    slug := generateSlug i.title
    content := i.content
    excerpt := some (jsOrElse i.excerpt (jsSubstring i.content 200 ++ "..."))
    author := i.author
    status := effectiveStatus i
    featured_image := i.featured_image
    tags := jsOrElse i.tags ""
    category_id := i.category_id
    created_at := now
    updated_at := now
    published_at := if effectiveStatus i == "published" then some now else none }

/-- INSERT honouring the `slug TEXT UNIQUE NOT NULL` constraint of the posts
table: a duplicate slug raises a UNIQUE-constraint error. -/
def insertPost (db : Database) (row : PostRow) : Except String Database :=
  if db.posts.any (fun p => p.slug == row.slug) then
    Except.error "UNIQUE constraint failed: posts.slug"
  else Except.ok { db with posts := db.posts ++ [row] }

/-- Outcome of POST /api/admin/posts: 201 with the re-fetched row, or the 409
branch taken when the storage error is a UNIQUE-constraint failure. -/
inductive CreateResult
  | created (post : PostRow) (db : Database)
  | conflict
deriving DecidableEq, Repr

/-- POST /api/admin/posts (lines 300–340). -/
def postCreateHandler (db : Database) (i : PostInput) (newId now : Nat) : CreateResult :=
  match insertPost db (createdPostRow i newId now) with
  | Except.ok db2 => CreateResult.created (createdPostRow i newId now) db2
  | Except.error _ => CreateResult.conflict

/-! ### Post update (PUT /api/admin/posts/:id, src/index.ts lines 342–392) -/

/-- A SQL value bound to an assignment placeholder. -/
inductive SqlValue
  | str (v : String)
  | num (v : Nat)
deriving DecidableEq, Repr

/-- The parsed body of a partial post update (`postSchema.partial()`): every
recognized field optional; zod strips unknown keys. -/
structure PostPatch where
  title : Option String
  content : Option String
  excerpt : Option String
  author : Option String
  status : Option String
  featured_image : Option String
  tags : Option String
  category_id : Option Nat
deriving DecidableEq, Repr

/-- One `key = ?` assignment for a supplied optional field. -/
def optAssign {α : Type} (col : String) (f : α → SqlValue) : Option α → List (String × SqlValue)
  | some v => [(col, f v)]
  | none => []

/-- The two assignments pushed for a supplied `title`
(`updates.push('title = ?', 'slug = ?')`, lines 358–360). -/
def titleAssign : Option String → List (String × SqlValue)
  | some t => [("title", SqlValue.str t), ("slug", SqlValue.str (generateSlug t))]
  | none => []

/-- The `published_at = ?` assignment added when the supplied status is
`'published'` (lines 370–373). -/
def publishedStamp (p : PostPatch) (now : Nat) : List (String × SqlValue) :=
  if p.status == some "published" then [("published_at", SqlValue.num now)] else []

/-- The assignment list of the dynamic UPDATE statement (lines 354–373): one
clause per supplied field, `slug` alongside `title`, then `updated_at`, then
conditionally `published_at`. -/
def updateAssignments (p : PostPatch) (now : Nat) : List (String × SqlValue) :=
  titleAssign p.title ++
  optAssign "content" SqlValue.str p.content ++
  optAssign "excerpt" SqlValue.str p.excerpt ++
  optAssign "author" SqlValue.str p.author ++
  optAssign "status" SqlValue.str p.status ++
  optAssign "featured_image" SqlValue.str p.featured_image ++
  optAssign "tags" SqlValue.str p.tags ++
  optAssign "category_id" SqlValue.num p.category_id ++
  [("updated_at", SqlValue.num now)] ++
  publishedStamp p now

/-! ### Post deletion (DELETE /api/admin/posts/:id, src/index.ts lines 394–409) -/

inductive DeleteResult
  | notFound
  | deleted
deriving DecidableEq, Repr

/-- The database after `DELETE FROM posts WHERE id = ?`: the post rows with
that id are removed, and (by `ON DELETE CASCADE`) so are the comments of a
removed post. -/
def dbAfterDelete (db : Database) (id : Nat) : Database :=
  { db with
    posts := db.posts.filter (fun p => !(p.id == id))
    comments :=
      if db.posts.any (fun p => p.id == id) then
        db.comments.filter (fun c => !(c.post_id == id))
      else db.comments }

/-- DELETE /api/admin/posts/:id: 404 exactly when `result.changes === 0`. -/
def deletePostHandler (db : Database) (id : Nat) : DeleteResult × Database :=
  if db.posts.length - (db.posts.filter (fun p => !(p.id == id))).length == 0 then
    (DeleteResult.notFound, dbAfterDelete db id)
  else
    (DeleteResult.deleted, dbAfterDelete db id)

/-! ### Comment listing (src/index.ts lines 458–474 and 508–539) -/

/-- `ORDER BY created_at ASC`. -/
def commentAsc (a b : CommentRow) : Prop := a.created_at ≤ b.created_at

instance : DecidableRel commentAsc := fun a b => Nat.decLe a.created_at b.created_at

/-- `ORDER BY c.created_at DESC` on the comment–post join of the admin
listing. -/
def adminCommentDesc (a b : CommentRow × PostRow) : Prop :=
  b.1.created_at ≤ a.1.created_at

instance : DecidableRel adminCommentDesc :=
  fun a b => Nat.decLe b.1.created_at a.1.created_at

/-- Ascending chronological order on the admin listing's joined rows (the
order the specification asserts). -/
def adminCommentAsc (a b : CommentRow × PostRow) : Prop :=
  a.1.created_at ≤ b.1.created_at

instance : DecidableRel adminCommentAsc :=
  fun a b => Nat.decLe a.1.created_at b.1.created_at

/-- GET /api/posts/:postId/comments (lines 458–474): the status filter is
`c.req.query('status') || 'approved'`, so both an absent and a
present-but-empty `status` parameter (the empty string is falsy in
JavaScript) default to `'approved'`; ordered by `created_at ASC`, no
pagination. -/
def publicListComments (db : Database) (postId : Nat) (statusQ : Option String) :
    List CommentRow :=
  List.insertionSort commentAsc
    (db.comments.filter
      (fun c => c.post_id == postId && c.status == jsOrElse statusQ "approved"))

structure AdminCommentsResponse where
  comments : List (CommentRow × PostRow)
  pagination : Pagination

/-- GET /api/admin/comments (lines 508–539): inner JOIN with posts, status
filter defaulting to `'pending'`, `ORDER BY c.created_at DESC`, paginated
with defaults `page=1`, `limit=20`. -/
def adminListComments (db : Database) (statusQ : Option String)
    (pageQ limitQ : Option Int) : AdminCommentsResponse :=
  let status := statusQ.getD "pending"
  let page := pageQ.getD 1
  let limit := limitQ.getD 20
  let offset := (page - 1) * limit
  let joined := db.comments.flatMap
    (fun c => (db.posts.filter (fun p => p.id == c.post_id)).map (fun p => (c, p)))
  let rows := sqlLimitOffset
    (List.insertionSort adminCommentDesc (joined.filter (fun cp => cp.1.status == status)))
    limit offset
  let total := (db.comments.filter (fun c => c.status == status)).length
  { comments := rows
    pagination := { page := page, limit := limit, total := total,
                    pages := jsCeilDiv total limit } }

/-! ### Routing and auth (src/index.ts line 298) -/

/-- `app.use('/api/admin/*', bearerAuth(...))`: only paths under
`/api/admin/` require the bearer token. -/
def adminProtected (path : String) : Bool :=
  List.isPrefixOf "/api/admin/".data path.data

/-- The path of GET /api/posts/:postId/comments. -/
def publicCommentsPath (postId : Nat) : String :=
  "/api/posts/" ++ toString postId ++ "/comments"

/-! ### Example data for concrete witnesses -/

def exCategory : CategoryRow :=
  { id := 1, name := "Tech", slug := "tech", description := none, created_at := 1 }

def exPost1 : PostRow :=
  { id := 1, title := "Hello World", slug := "hello-world",
    content := "First post about tech", excerpt := some "intro",
    author := "sam", status := "published", featured_image := none,
    tags := "", category_id := some 1, created_at := 2, updated_at := 2,
    published_at := some 2 }

def exPost2 : PostRow :=
  { id := 2, title := "Draft note", slug := "draft-note",
    content := "Unfinished", excerpt := none,
    author := "sam", status := "draft", featured_image := none,
    tags := "", category_id := none, created_at := 3, updated_at := 3,
    published_at := none }

def exComment1 : CommentRow :=
  { id := 1, post_id := 1, author_name := "ann", author_email := "ann@example.com",
    content := "first", status := "pending", created_at := 10 }

def exComment2 : CommentRow :=
  { id := 2, post_id := 1, author_name := "bob", author_email := "bob@example.com",
    content := "second", status := "pending", created_at := 20 }

def exDb : Database :=
  { posts := [exPost1, exPost2], categories := [exCategory],
    comments := [exComment1, exComment2] }

def exEmptyDb : Database := { posts := [], categories := [], comments := [] }

/-- C1: for every post-listing request the bound query offset equals
`(page - 1) * limit` with `page` defaulting to 1 and `limit` to 10, the
pagination object echoes `page` and `limit`, its `total` is the count of
matching rows, and (for a positive limit) `pages = Math.ceil(total / limit)`,
characterised by `total ≤ pages * limit < total + limit`. -/
theorem getPosts_pagination_correct (db : Database) (pageQ limitQ : Option Int)
    (statusQ categoryQ searchQ : Option String)
    (hl : 0 < limitQ.getD 10) :
    (getPosts db pageQ limitQ statusQ categoryQ searchQ).boundOffset =
      (pageQ.getD 1 - 1) * limitQ.getD 10 ∧
    (getPosts db pageQ limitQ statusQ categoryQ searchQ).pagination.page = pageQ.getD 1 ∧
    (getPosts db pageQ limitQ statusQ categoryQ searchQ).pagination.limit = limitQ.getD 10 ∧
    (getPosts db pageQ limitQ statusQ categoryQ searchQ).pagination.total =
      countPostsTotal db (statusQ.getD "published") categoryQ searchQ ∧
    ((getPosts db pageQ limitQ statusQ categoryQ searchQ).pagination.total : Int) ≤
      (getPosts db pageQ limitQ statusQ categoryQ searchQ).pagination.pages *
        limitQ.getD 10 ∧
    (getPosts db pageQ limitQ statusQ categoryQ searchQ).pagination.pages *
        limitQ.getD 10 <
      (getPosts db pageQ limitQ statusQ categoryQ searchQ).pagination.total +
        limitQ.getD 10 := by
  refine ⟨rfl, rfl, rfl, rfl, ?_, ?_⟩
  · exact (jsCeilDiv_bounds
      (countPostsTotal db (statusQ.getD "published") categoryQ searchQ)
      (limitQ.getD 10) hl).1
  · exact (jsCeilDiv_bounds
      (countPostsTotal db (statusQ.getD "published") categoryQ searchQ)
      (limitQ.getD 10) hl).2

/-- Witness for C1 at the specification's example `limit=10, page=2`
(offset 10) against the concrete database `exDb`. -/
theorem getPosts_pagination_correct_witness :
    (0 : Int) < (some (10 : Int)).getD 10 ∧
    ((getPosts exDb (some 2) (some 10) none none none).boundOffset =
        ((some (2 : Int)).getD 1 - 1) * (some (10 : Int)).getD 10 ∧
      (getPosts exDb (some 2) (some 10) none none none).pagination.page =
        (some (2 : Int)).getD 1 ∧
      (getPosts exDb (some 2) (some 10) none none none).pagination.limit =
        (some (10 : Int)).getD 10 ∧
      (getPosts exDb (some 2) (some 10) none none none).pagination.total =
        countPostsTotal exDb ((none : Option String).getD "published") none none ∧
      ((getPosts exDb (some 2) (some 10) none none none).pagination.total : Int) ≤
        (getPosts exDb (some 2) (some 10) none none none).pagination.pages *
          (some (10 : Int)).getD 10 ∧
      (getPosts exDb (some 2) (some 10) none none none).pagination.pages *
          (some (10 : Int)).getD 10 <
        (getPosts exDb (some 2) (some 10) none none none).pagination.total +
          (some (10 : Int)).getD 10) :=
  ⟨by decide, getPosts_pagination_correct exDb (some 2) (some 10) none none none (by decide)⟩

/-- C2: for every combination of the status, category, and search filters,
the count query (category filter via EXISTS) reports exactly the number of
rows the unpaginated list query (category filter via LEFT JOIN) returns,
provided category ids are unique (they are the table's primary key). -/
theorem countQuery_matches_listQuery (db : Database) (status : String)
    (category search : Option String)
    (hid : (db.categories.map CategoryRow.id).Nodup) :
    (listPostsRows db status category search).length =
      countPostsTotal db status category search :=
  listCount_aux db.categories hid status category search db.posts

/-- Witness for C2 on `exDb` with all three filters present. -/
theorem countQuery_matches_listQuery_witness :
    (exDb.categories.map CategoryRow.id).Nodup ∧
    (listPostsRows exDb "published" (some "tech") (some "tech")).length =
      countPostsTotal exDb "published" (some "tech") (some "tech") :=
  ⟨by decide,
    countQuery_matches_listQuery exDb "published" (some "tech") (some "tech") (by decide)⟩

/-- C3: for every input string, the slug contains only lowercase letters,
digits and hyphens, never two adjacent hyphens, and neither starts nor ends
with a hyphen. -/
theorem generateSlug_wellformed (s : String) :
    (∀ c ∈ (generateSlug s).data, isSlugChar c = true ∨ c = '-') ∧
    List.Chain' NotBothHyphens (generateSlug s).data ∧
    (generateSlug s).data.head? ≠ some '-' ∧
    (generateSlug s).data.getLast? ≠ some '-' :=
  slug_shape s

/-- Witness for C3 at a concrete title. -/
theorem generateSlug_wellformed_witness :
    (∀ c ∈ (generateSlug "  Hello,  World! 42 ").data, isSlugChar c = true ∨ c = '-') ∧
    List.Chain' NotBothHyphens (generateSlug "  Hello,  World! 42 ").data ∧
    (generateSlug "  Hello,  World! 42 ").data.head? ≠ some '-' ∧
    (generateSlug "  Hello,  World! 42 ").data.getLast? ≠ some '-' :=
  generateSlug_wellformed "  Hello,  World! 42 "

/-- C4: the slug generator is idempotent. -/
theorem generateSlug_idempotent (x : String) :
    generateSlug (generateSlug x) = generateSlug x := by
  obtain ⟨hmem, hch, hhead, hlast⟩ := slug_shape x
  exact generateSlug_fixed hmem hch hhead hlast

def exInputPub : PostInput :=
  { title := "Hello Again", content := "More text", excerpt := none,
    author := "sam", status := some "published", featured_image := none,
    tags := none, category_id := none }

def exDbAfterCreate : Database :=
  { posts := [createdPostRow exInputPub 1 5], categories := [], comments := [] }

/-- C5: when the create handler succeeds, the stored-and-returned row has
`published_at = now` if the request's status was `published`, and
`published_at = null` if it was `draft` or omitted (the zod default). -/
theorem postCreate_publishedAt (db : Database) (i : PostInput) (newId now : Nat)
    (post : PostRow) (db2 : Database)
    (h : postCreateHandler db i newId now = CreateResult.created post db2) :
    post ∈ db2.posts ∧
    (i.status = some "published" → post.published_at = some now) ∧
    (i.status = some "draft" ∨ i.status = none → post.published_at = none) := by
  unfold postCreateHandler insertPost at h
  by_cases hdup : (db.posts.any (fun p => p.slug == (createdPostRow i newId now).slug)) = true
  · rw [if_pos hdup] at h
    exact absurd h (by simp)
  · rw [if_neg hdup] at h
    simp only [CreateResult.created.injEq] at h
    obtain ⟨hpost, hdb⟩ := h
    subst hpost
    subst hdb
    refine ⟨?_, ?_, ?_⟩
    · simp [createdPostRow]
    · intro hs
      simp [createdPostRow, effectiveStatus, hs]
    · rintro (hs | hs) <;> simp [createdPostRow, effectiveStatus, hs]

/-- Witness for C5: creating a published post in the empty database. -/
theorem postCreate_publishedAt_witness :
    postCreateHandler exEmptyDb exInputPub 1 5 =
      CreateResult.created (createdPostRow exInputPub 1 5) exDbAfterCreate ∧
    (createdPostRow exInputPub 1 5 ∈ exDbAfterCreate.posts ∧
      (exInputPub.status = some "published" →
        (createdPostRow exInputPub 1 5).published_at = some 5) ∧
      (exInputPub.status = some "draft" ∨ exInputPub.status = none →
        (createdPostRow exInputPub 1 5).published_at = none)) :=
  ⟨rfl, postCreate_publishedAt exEmptyDb exInputPub 1 5 _ _ rfl⟩

lemma fst_mem_optAssign {α : Type} {col s : String} {f : α → SqlValue} {o : Option α}
    (h : s ∈ (optAssign col f o).map Prod.fst) : s = col := by
  cases o with
  | none => simp [optAssign] at h
  | some v =>
    simp [optAssign] at h
    exact h

lemma fst_mem_titleAssign {s : String} {o : Option String}
    (h : s ∈ (titleAssign o).map Prod.fst) : s = "title" ∨ s = "slug" := by
  cases o with
  | none => simp [titleAssign] at h
  | some v =>
    simp [titleAssign] at h
    exact h

lemma fst_mem_publishedStamp {s : String} {p : PostPatch} {now : Nat}
    (h : s ∈ (publishedStamp p now).map Prod.fst) : s = "published_at" := by
  unfold publishedStamp at h
  split at h
  · simp at h
    exact h
  · simp at h

/-- C6: a post update never assigns `created_at`, and whenever the patch
supplies a title the update also assigns `slug = generateSlug(title)`
(alongside `title` itself). -/
theorem postUpdate_frame (p : PostPatch) (now : Nat) :
    "created_at" ∉ (updateAssignments p now).map Prod.fst ∧
    ∀ t, p.title = some t →
      ("slug", SqlValue.str (generateSlug t)) ∈ updateAssignments p now ∧
      ("title", SqlValue.str t) ∈ updateAssignments p now := by
  constructor
  · intro hmem
    simp only [updateAssignments, List.map_append, List.mem_append] at hmem
    rcases hmem with ((((((((h | h) | h) | h) | h) | h) | h) | h) | h) | h
    · rcases fst_mem_titleAssign h with h | h <;> exact absurd h (by decide)
    · exact absurd (fst_mem_optAssign h) (by decide)
    · exact absurd (fst_mem_optAssign h) (by decide)
    · exact absurd (fst_mem_optAssign h) (by decide)
    · exact absurd (fst_mem_optAssign h) (by decide)
    · exact absurd (fst_mem_optAssign h) (by decide)
    · exact absurd (fst_mem_optAssign h) (by decide)
    · exact absurd (fst_mem_optAssign h) (by decide)
    · simp at h
    · exact absurd (fst_mem_publishedStamp h) (by decide)
  · intro t ht
    constructor
    · simp [updateAssignments, titleAssign, ht]
    · simp [updateAssignments, titleAssign, ht]

def exPatch : PostPatch :=
  { title := some "My New Title", content := none, excerpt := none,
    author := none, status := none, featured_image := none, tags := none,
    category_id := none }

/-- Witness for C6 on a patch supplying only a title. -/
theorem postUpdate_frame_witness :
    "created_at" ∉ (updateAssignments exPatch 7).map Prod.fst ∧
    (("slug", SqlValue.str (generateSlug "My New Title")) ∈ updateAssignments exPatch 7 ∧
      ("title", SqlValue.str "My New Title") ∈ updateAssignments exPatch 7) :=
  ⟨(postUpdate_frame exPatch 7).1, (postUpdate_frame exPatch 7).2 "My New Title" rfl⟩

/-- C7: deleting a post answers 404 exactly when no row had the requested id
(zero rows affected), and success exactly when such a row existed. -/
theorem deletePost_status (db : Database) (id : Nat) :
    ((deletePostHandler db id).1 = DeleteResult.notFound ↔ ∀ p ∈ db.posts, p.id ≠ id) ∧
    ((deletePostHandler db id).1 = DeleteResult.deleted ↔ ∃ p ∈ db.posts, p.id = id) := by
  have hsub : (db.posts.filter (fun p => !(p.id == id))).Sublist db.posts :=
    List.filter_sublist _
  have key : db.posts.length - (db.posts.filter (fun p => !(p.id == id))).length = 0 ↔
      ∀ p ∈ db.posts, p.id ≠ id := by
    rw [Nat.sub_eq_zero_iff_le]
    constructor
    · intro hle p hp hpid
      have heq : db.posts.filter (fun p => !(p.id == id)) = db.posts :=
        hsub.eq_of_length (le_antisymm hsub.length_le hle)
      have := List.filter_eq_self.mp heq p hp
      simp [hpid] at this
    · intro hall
      have heq : db.posts.filter (fun p => !(p.id == id)) = db.posts :=
        List.filter_eq_self.mpr (fun p hp => by simp [hall p hp])
      rw [heq]
  unfold deletePostHandler
  split
  · rename_i hc
    have hall : ∀ p ∈ db.posts, p.id ≠ id := key.mp (by simpa using hc)
    constructor
    · exact ⟨fun _ => hall, fun _ => rfl⟩
    · constructor
      · intro h
        simp at h
      · rintro ⟨p, hp, hpid⟩
        exact absurd hpid (hall p hp)
  · rename_i hc
    have hnall : ¬ ∀ p ∈ db.posts, p.id ≠ id := fun hall => hc (by simpa using key.mpr hall)
    push_neg at hnall
    constructor
    · constructor
      · intro h
        simp at h
      · intro hall
        obtain ⟨p, hp, hpid⟩ := hnall
        exact absurd hpid (hall p hp)
    · exact ⟨fun _ => hnall, fun _ => rfl⟩

/-- Witness for C7 against the concrete database. -/
theorem deletePost_status_witness :
    ((deletePostHandler exDb 1).1 = DeleteResult.notFound ↔ ∀ p ∈ exDb.posts, p.id ≠ 1) ∧
    ((deletePostHandler exDb 1).1 = DeleteResult.deleted ↔ ∃ p ∈ exDb.posts, p.id = 1) :=
  deletePost_status exDb 1

instance : IsTotal CommentRow commentAsc :=
  ⟨fun a b => Nat.le_total a.created_at b.created_at⟩

instance : IsTrans CommentRow commentAsc :=
  ⟨fun _ _ _ hab hbc => Nat.le_trans hab hbc⟩

instance : IsTotal (CommentRow × PostRow) adminCommentDesc :=
  ⟨fun a b => Nat.le_total b.1.created_at a.1.created_at⟩

instance : IsTrans (CommentRow × PostRow) adminCommentDesc :=
  ⟨fun _ _ _ hab hbc => Nat.le_trans hbc hab⟩

lemma sqlLimitOffset_sublist {α : Type} (l : List α) (limit offset : Int) :
    (sqlLimitOffset l limit offset).Sublist l := by
  unfold sqlLimitOffset
  split
  · exact List.drop_sublist _ _
  · exact (List.take_sublist _ _).trans (List.drop_sublist _ _)

/-- Counterexample to C8 as stated: the admin moderation listing is not in
ascending `created_at` order on a database with two pending comments. -/
theorem adminComments_not_ascending :
    ¬ List.Sorted adminCommentAsc (adminListComments exDb none none none).comments := by
  decide

/-- C8 (amended): the public comment listing is ordered by `created_at`
ascending, while the admin moderation listing is ordered by `created_at`
descending. -/
theorem comments_listing_order (db : Database) (postId : Nat) (statusQ : Option String)
    (pageQ limitQ : Option Int) :
    List.Sorted commentAsc (publicListComments db postId statusQ) ∧
    List.Sorted adminCommentDesc (adminListComments db statusQ pageQ limitQ).comments := by
  constructor
  · exact List.sorted_insertionSort commentAsc _
  · exact List.Pairwise.sublist (sqlLimitOffset_sublist _ _ _)
      (List.sorted_insertionSort adminCommentDesc _)

lemma replaceRuns_true_nil {l : List Char}
    (h : ∀ c ∈ l, isSlugChar c = false) : replaceRuns true l = [] := by
  induction l with
  | nil => rfl
  | cons c cs ih =>
    rw [replaceRuns, if_neg (by simp [h c (List.mem_cons_self _ _)]), if_pos (by simp)]
    exact ih (fun d hd => h d (List.mem_cons_of_mem _ hd))

/-- A title with no alphanumeric characters (after lowercasing) produces the
empty slug. -/
lemma generateSlug_of_no_alnum {s : String}
    (h : ∀ c ∈ s.data, isSlugChar (Char.toLower c) = false) :
    generateSlug s = "" := by
  have hmap : ∀ c ∈ s.data.map Char.toLower, isSlugChar c = false := by
    intro c hc
    obtain ⟨d, hd, rfl⟩ := List.mem_map.mp hc
    exact h d hd
  rw [generateSlug]
  cases hm : s.data.map Char.toLower with
  | nil => rfl
  | cons c cs =>
    rw [hm] at hmap
    rw [replaceRuns, if_neg (by simp [hmap c (List.mem_cons_self _ _)]),
      if_neg (by simp),
      replaceRuns_true_nil (fun d hd => hmap d (List.mem_cons_of_mem _ hd))]
    rfl

/-- C9 (amended): a title with no alphanumeric characters yields an empty
slug; the insert then fails with a UNIQUE-constraint conflict exactly when a
post with the empty slug already exists, and otherwise succeeds silently,
storing the empty slug (the slug `''` is not NULL, so the NOT NULL
constraint never fires). -/
theorem postCreate_emptyTitle (db : Database) (i : PostInput) (newId now : Nat)
    (h : ∀ c ∈ i.title.data, isSlugChar (Char.toLower c) = false) :
    generateSlug i.title = "" ∧
    ((∃ p ∈ db.posts, p.slug = "") →
      postCreateHandler db i newId now = CreateResult.conflict) ∧
    ((∀ p ∈ db.posts, p.slug ≠ "") →
      postCreateHandler db i newId now =
        CreateResult.created (createdPostRow i newId now)
          { db with posts := db.posts ++ [createdPostRow i newId now] } ∧
      (createdPostRow i newId now).slug = "") := by
  have hslug : generateSlug i.title = "" := generateSlug_of_no_alnum h
  refine ⟨hslug, ?_, ?_⟩
  · rintro ⟨p, hp, hps⟩
    have hany : (db.posts.any (fun q => q.slug == (createdPostRow i newId now).slug)) = true := by
      rw [List.any_eq_true]
      exact ⟨p, hp, by simp [createdPostRow, hslug, hps]⟩
    have hins : insertPost db (createdPostRow i newId now) =
        Except.error "UNIQUE constraint failed: posts.slug" := by
      unfold insertPost
      rw [if_pos hany]
    unfold postCreateHandler
    rw [hins]
  · intro hall
    have hany : (db.posts.any (fun q => q.slug == (createdPostRow i newId now).slug)) = false := by
      rw [List.any_eq_false]
      intro p hp
      simp only [createdPostRow, hslug, beq_iff_eq]
      exact hall p hp
    have hins : insertPost db (createdPostRow i newId now) =
        Except.ok { db with posts := db.posts ++ [createdPostRow i newId now] } := by
      unfold insertPost
      rw [if_neg (by simp [hany])]
    constructor
    · unfold postCreateHandler
      rw [hins]
    · simp [createdPostRow, hslug]

def exWhitespaceInput : PostInput :=
  { title := "   ", content := "body", excerpt := none, author := "sam",
    status := none, featured_image := none, tags := none, category_id := none }

/-- Counterexample to C9 as stated: with no prior empty-slug row, creating a
post whose title is whitespace-only does not fail at insert time — it
succeeds silently with an empty slug. -/
theorem emptyTitle_create_succeeds :
    generateSlug "   " = "" ∧
    postCreateHandler exEmptyDb exWhitespaceInput 1 5 =
      CreateResult.created (createdPostRow exWhitespaceInput 1 5)
        { exEmptyDb with posts := [createdPostRow exWhitespaceInput 1 5] } ∧
    (createdPostRow exWhitespaceInput 1 5).slug = "" := by
  refine ⟨by decide, by decide, by decide⟩

def exEmptySlugPost : PostRow :=
  { id := 9, title := " ", slug := "", content := "x", excerpt := none,
    author := "sam", status := "draft", featured_image := none, tags := "",
    category_id := none, created_at := 1, updated_at := 1, published_at := none }

def exDbEmptySlug : Database :=
  { posts := [exEmptySlugPost], categories := [], comments := [] }

/-- Witness for the amended C9 on a database that already holds an
empty-slug post. -/
theorem postCreate_emptyTitle_witness :
    (∀ c ∈ exWhitespaceInput.title.data, isSlugChar (Char.toLower c) = false) ∧
    (generateSlug exWhitespaceInput.title = "" ∧
      ((∃ p ∈ exDbEmptySlug.posts, p.slug = "") →
        postCreateHandler exDbEmptySlug exWhitespaceInput 2 6 = CreateResult.conflict) ∧
      ((∀ p ∈ exDbEmptySlug.posts, p.slug ≠ "") →
        postCreateHandler exDbEmptySlug exWhitespaceInput 2 6 =
          CreateResult.created (createdPostRow exWhitespaceInput 2 6)
            { exDbEmptySlug with
              posts := exDbEmptySlug.posts ++ [createdPostRow exWhitespaceInput 2 6] } ∧
        (createdPostRow exWhitespaceInput 2 6).slug = "")) :=
  ⟨by decide, postCreate_emptyTitle exDbEmptySlug exWhitespaceInput 2 6 (by decide)⟩

lemma adminProtected_publicCommentsPath (postId : Nat) :
    adminProtected (publicCommentsPath postId) = false := by
  unfold adminProtected publicCommentsPath
  rw [Bool.eq_false_iff]
  intro h
  rw [List.isPrefixOf_iff_prefix, List.prefix_iff_eq_take, String.data_append,
    String.data_append, List.append_assoc,
    show ("/api/admin/".data).length = 11 from by decide,
    List.take_left' (by decide)] at h
  exact absurd h (by decide)

def exApprovedComment : CommentRow :=
  { id := 3, post_id := 1, author_name := "cal", author_email := "cal@example.com",
    content := "nice", status := "approved", created_at := 30 }

def exDbApproved : Database :=
  { posts := [exPost1], categories := [], comments := [exApprovedComment] }

/-- Counterexample to C10 as stated: a request whose `status` parameter is
present but empty is defaulted to `'approved'` by `|| 'approved'` (the empty
string is falsy), so the listing for `s = ""` contains an approved comment
whose status is not `""` — the endpoint does not return exactly the comments
of the supplied status for every status string, and the default is not
applied only when the parameter is absent. -/
theorem publicComments_empty_status_defaults :
    exApprovedComment ∈ publicListComments exDbApproved 1 (some "") ∧
    exApprovedComment.status ≠ "" := by
  decide

/-- C10 (amended): for every nonempty status string `s`, the unauthenticated
comment-listing endpoint returns exactly the post's comments whose status
equals `s` (so pending and rejected comments are readable without any bearer
token); an absent and a present-but-empty status parameter both default to
`'approved'`; the endpoint's path is not under the bearer-auth prefix. -/
theorem publicComments_any_status (db : Database) (postId : Nat) (s : String)
    (hs : s ≠ "") :
    (publicListComments db postId (some s)).Perm
      (db.comments.filter (fun c => c.post_id == postId && c.status == s)) ∧
    (∀ c : CommentRow, c ∈ publicListComments db postId (some s) ↔
      c ∈ db.comments ∧ c.post_id = postId ∧ c.status = s) ∧
    publicListComments db postId none = publicListComments db postId (some "approved") ∧
    publicListComments db postId (some "") =
      publicListComments db postId (some "approved") ∧
    adminProtected (publicCommentsPath postId) = false := by
  have hEff : jsOrElse (some s) "approved" = s := by
    rw [jsOrElse, if_neg hs]
  refine ⟨?_, ?_, ?_, ?_, adminProtected_publicCommentsPath postId⟩
  · unfold publicListComments
    rw [hEff]
    exact List.perm_insertionSort _ _
  · intro c
    unfold publicListComments
    rw [hEff, List.mem_insertionSort, List.mem_filter]
    simp [and_assoc]
  · simp [publicListComments, jsOrElse]
  · simp [publicListComments, jsOrElse]

/-- Witness for the amended C10: the pending comments of post 1 are served
without authentication. -/
theorem publicComments_any_status_witness :
    "pending" ≠ "" ∧
    ((publicListComments exDb 1 (some "pending")).Perm
      (exDb.comments.filter (fun c => c.post_id == 1 && c.status == "pending")) ∧
    (∀ c : CommentRow, c ∈ publicListComments exDb 1 (some "pending") ↔
      c ∈ exDb.comments ∧ c.post_id = 1 ∧ c.status = "pending") ∧
    publicListComments exDb 1 none = publicListComments exDb 1 (some "approved") ∧
    publicListComments exDb 1 (some "") = publicListComments exDb 1 (some "approved") ∧
    adminProtected (publicCommentsPath 1) = false) :=
  ⟨by decide, publicComments_any_status exDb 1 "pending" (by decide)⟩

end Blog
